import Mathlib

/-
Verification of the publication-figure-extraction scripts
(scripts/extract_fig1.py, scripts/extract_fig1_yaml.py,
scripts/extract_remaining_figs.py) against their specification.

The Python code is shallowly embedded: URLs are Lean `String`s, Python's
substring test / `str.replace` / counting are modelled over `List Char`,
the PDF document is a list of pages each holding a list of embedded
images (encoded byte size plus native extension), network and filesystem
effects are an explicit environment mapping each URL to the outcome the
run observes for it, and the batch loop is explicit list recursion.
-/

/-- Python's `pat == s[:len(pat)]` check: does `pat` literally start the
list `s`?  Written with explicit recursion so the kernel can evaluate it. -/
def firstMatches : List Char → List Char → Bool
  | [], _ => true
  | _ :: _, [] => false
  | p :: ps, c :: cs => p == c && firstMatches ps cs

/-- Python's `pat in s` substring test over character lists. -/
def hasSub (pat : List Char) : List Char → Bool
  | [] => pat.isEmpty
  | c :: rest => firstMatches pat (c :: rest) || hasSub pat rest

/-- Number of start positions at which `pat` occurs in the list. -/
def countSub (pat : List Char) : List Char → Nat
  | [] => 0
  | c :: rest => (if firstMatches pat (c :: rest) = true then 1 else 0) + countSub pat rest

/-- Worker for `subAll`: the `Nat` argument counts characters still to be
skipped because they belonged to an occurrence of the pattern that was
already replaced.  Structural recursion on the list, matching Python's
left-to-right non-overlapping `str.replace` scan. -/
def subAllAux (pat rep : List Char) : List Char → Nat → List Char
  | [], _ => []
  | _ :: rest, Nat.succ k => subAllAux pat rep rest k
  | c :: rest, 0 =>
    if firstMatches pat (c :: rest) = true ∧ 1 ≤ pat.length then
      rep ++ subAllAux pat rep rest (pat.length - 1)
    else
      c :: subAllAux pat rep rest 0

/-- Python's `s.replace(pat, rep)` over character lists (for nonempty `pat`). -/
def subAll (pat rep s : List Char) : List Char :=
  subAllAux pat rep s 0

/-- Python `pat in s` on strings. -/
def strContains (s pat : String) : Bool := hasSub pat.data s.data

/-- Python `s.replace(pat, rep)` on strings. -/
def strReplace (s pat rep : String) : String := String.mk (subAll pat.data rep.data s.data)

/-- Number of start positions at which `pat` occurs in `s`. -/
def strCount (s pat : String) : Nat := countSub pat.data s.data

/-- Python `s.startswith(pat)`. -/
def strStartsWith (s pat : String) : Bool := firstMatches pat.data s.data

/-- Python `s.endswith(pat)`. -/
def strEndsWith (s pat : String) : Bool := firstMatches pat.data.reverse s.data.reverse

/-- One entry of a publication's `links` list in `_data/publications.yml`:
a kind tag (`link.get('type','')`) and a URL (`link.get('url','')`). -/
structure Link where
  type : String := ""
  url : String := ""
deriving DecidableEq

/-- One publication record: title, optional year, optional links list
(absent key modelled as `none`), optional picture path. -/
structure Paper where
  title : String := ""
  year : Option Int := none
  links : Option (List Link) := none
  picture : Option String := none
deriving DecidableEq

/-- The loop body of `find_pdf_url` in `scripts/extract_fig1_yaml.py`
(lines 38-52): scan the links in order; an `arxiv`-kind link whose URL
contains `arxiv.org` is rewritten (`/abs/` → `/pdf/` plus an appended
`.pdf`) or returned as is, a `pdf`-kind link is returned verbatim, any
other link is skipped. -/
def findPdfUrlLinks : List Link → Option String
  | [] => none
  | link :: rest =>
    if link.type = "arxiv" ∧ strContains link.url "arxiv.org" = true then
      if strContains link.url "/abs/" = true then
        some (strReplace link.url "/abs/" "/pdf/" ++ ".pdf")
      else
        some link.url
    else if link.type = "pdf" then
      some link.url
    else
      findPdfUrlLinks rest

/-- `find_pdf_url` of `scripts/extract_fig1_yaml.py`: `None` when the
record has no `links` key, otherwise the scan above. -/
def find_pdf_url (p : Paper) : Option String :=
  match p.links with
  | none => none
  | some ls => findPdfUrlLinks ls

/-- `find_pdf_link` of `scripts/extract_fig1.py` (lines 36-42): the first
`href` containing `pdf`, `arxiv.org/abs` or `openreview.net`, or ending
in `.pdf`. -/
def find_pdf_link : List String → Option String
  | [] => none
  | h :: rest =>
    if strContains h "pdf" = true ∨ strContains h "arxiv.org/abs" = true ∨
        strContains h "openreview.net" = true ∨ strEndsWith h ".pdf" = true then
      some h
    else
      find_pdf_link rest

/-- `normalize_pdf_url` of `scripts/extract_fig1.py` (lines 45-52).  Note
the Python conditional-expression precedence: when the href already ends
in `.pdf` the whole href is returned unchanged, without the abs→pdf
rewrite. -/
def normalize_pdf_url (href : String) : String :=
  if strStartsWith href "http" = true then
    if strContains href "arxiv.org/abs" = true then
      if strEndsWith href ".pdf" = false then
        strReplace href "arxiv.org/abs" "arxiv.org/pdf" ++ ".pdf"
      else
        href
    else
      href
  else
    "https://xiaocw11.github.io" ++ href

/-- A character kept verbatim by `slugify`'s regex `[^a-z0-9]+`. -/
def isSlugChar (c : Char) : Bool := c.isLower || c.isDigit

/-- Worker for `slugify`: replace each maximal run of non-slug characters
by a single dash.  The flag records being inside such a run. -/
def slugCharsAux : List Char → Bool → List Char
  | [], _ => []
  | c :: rest, inRun =>
    if isSlugChar c then c :: slugCharsAux rest false
    else if inRun then slugCharsAux rest true
    else '-' :: slugCharsAux rest true

/-- Strip leading and trailing dashes (Python `s.strip('-')`). -/
def trimDash (l : List Char) : List Char :=
  ((l.dropWhile (fun c => c == '-')).reverse.dropWhile (fun c => c == '-')).reverse

/-- `slugify` of the scripts: lower-case, collapse non-alphanumeric runs
to single dashes, strip dashes at both ends. -/
def slugify (t : String) : String :=
  String.mk (trimDash (slugCharsAux (t.data.map Char.toLower) false))

/-- One embedded raster image of a PDF page: the encoded byte size of
`doc.extract_image(xref)['image']` and its native extension
(`img_dict.get('ext','png')`). -/
structure PdfImage where
  size : Nat
  ext : String
deriving DecidableEq

/-- A PDF document as the extractor observes it: the list of pages, each
carrying its embedded images in embedding order (`page.get_images`). -/
structure PdfDoc where
  pages : List (List PdfImage)
deriving DecidableEq

/-- Outcome of one extractor run: the embedded image it saved, or the
rasterized fallback page (page index, DPI, saved extension), or failure
(the Python function returning `False`, writing nothing). -/
inductive ExtractResult where
  | embedded (img : PdfImage)
  | renderedPage (pageIndex dpi : Nat) (ext : String)
  | failure
deriving DecidableEq

/-- The size filter of `extract_first_image_from_pdf` in
`scripts/extract_fig1_yaml.py` line 82: an image survives when its byte
size is not below the 10000-byte threshold. -/
def isBigImage (i : PdfImage) : Bool := decide (10000 ≤ i.size)

/-- The inner loop over one page's images: skip images below the
threshold, return the first surviving one. -/
def firstBigImage : List PdfImage → Option PdfImage
  | [] => none
  | i :: rest => if isBigImage i = true then some i else firstBigImage rest

/-- The page loop of the YAML extractor: scan the given pages in order,
returning the first qualifying embedded image. -/
def scanPagesForImage : List (List PdfImage) → Option PdfImage
  | [] => none
  | pg :: rest =>
    match firstBigImage pg with
    | some i => some i
    | none => scanPagesForImage rest

/-- `extract_first_image_from_pdf` of `scripts/extract_fig1_yaml.py`
(lines 66-105), identical in `scripts/extract_remaining_figs.py`: scan
the first `min(3, len(doc))` pages for an embedded image of at least
10000 bytes and save the first hit under its native extension; otherwise
render page 1 (`doc[0]`) at 150 DPI to a `.png`; with zero pages, return
failure. -/
def extract_first_image_from_pdf (doc : PdfDoc) : ExtractResult :=
  match scanPagesForImage (doc.pages.take 3) with
  | some i => ExtractResult.embedded i
  | none =>
    if 0 < doc.pages.length then ExtractResult.renderedPage 0 150 "png"
    else ExtractResult.failure

/-- The page loop of `extract_first_image_from_pdf` in
`scripts/extract_fig1.py` (lines 67-77): every page is scanned, and the
first page with a nonempty image list contributes its first image, with
no size threshold. -/
def scanPagesHtml : List (List PdfImage) → Option PdfImage
  | [] => none
  | pg :: rest =>
    match pg with
    | [] => scanPagesHtml rest
    | i :: _ => some i

/-- `extract_first_image_from_pdf` of `scripts/extract_fig1.py`
(lines 64-86): first embedded image of the first nonempty page over the
whole document, else render page 1 at 150 DPI, else failure. -/
def extractFirstImageHtml (doc : PdfDoc) : ExtractResult :=
  match scanPagesHtml doc.pages with
  | some i => ExtractResult.embedded i
  | none =>
    if 0 < doc.pages.length then ExtractResult.renderedPage 0 150 "png"
    else ExtractResult.failure

/-- The boolean the Python extractor returns. -/
def extractSucceeded : ExtractResult → Bool
  | ExtractResult.failure => false
  | _ => true

/-- Extension of the file the extractor wrote, `none` when it wrote
nothing. -/
def savedExtOf : ExtractResult → Option String
  | ExtractResult.embedded i => some i.ext
  | ExtractResult.renderedPage _ _ e => some e
  | ExtractResult.failure => none

/-- Name of the image file the extractor left on disk for a record with
the given slug (`target_path.with_suffix('.' + ext)`), `none` when no
file was created. -/
def savedFileName (slug : String) : ExtractResult → Option String
  | ExtractResult.embedded i => some (slug ++ "." ++ i.ext)
  | ExtractResult.renderedPage _ _ e => some (slug ++ "." ++ e)
  | ExtractResult.failure => none

/-- Concatenation of a list of image lists, in order. -/
def concatAll : List (List PdfImage) → List PdfImage
  | [] => []
  | l :: ls => l ++ concatAll ls

/-- All embedded images the YAML extractor can see: the images of the
first 3 pages, in page-and-embedding order. -/
def windowImages (doc : PdfDoc) : List PdfImage :=
  concatAll (doc.pages.take 3)

/-- What one record's download-and-extract attempt yields, as the batch
loop observes it: `requests` raising (caught at line 159 of
`extract_fig1_yaml.py`), the extractor raising (caught at line 177), or
the extractor returning normally with the given result. -/
inductive FetchOutcome where
  | downloadFailed (msg : String)
  | extractRaised (msg : String)
  | extracted (r : ExtractResult)
deriving DecidableEq

/-- The fixed external world of one run: what dereferencing each URL
yields.  A function, so the same URL behaves the same on every attempt
within the run and across back-to-back runs. -/
abbrev Env := String → FetchOutcome

/-- Python truthiness of `paper.get('picture')`: a nonempty string. -/
def pictureTruthy (p : Paper) : Bool :=
  match p.picture with
  | some s => decide (s ≠ "")
  | none => false

/-- The extensions probed by the loop at lines 167-174 of
`extract_fig1_yaml.py` (`['.png', '.jpg', '.jpeg']`). -/
def allowedExts : List String := ["png", "jpg", "jpeg"]

/-- The picture path written back into a record:
`f"/images/publications/{img_file.name}"`. -/
def picturePath (slug ext : String) : String :=
  "/images/publications/" ++ (slug ++ ("." ++ ext))

/-- One iteration of the batch loop of `main` in
`scripts/extract_fig1_yaml.py` (lines 128-178) on one record: skip
non-2025 records, skip records already carrying a picture, skip records
without a resolvable PDF URL, treat download or extraction exceptions as
caught no-ops, and otherwise set the picture path exactly when the
extractor saved a file whose extension is one of `.png`, `.jpg`, `.jpeg`
(the target directory is assumed to hold no stale file for the record's
slug, so the existence probe sees exactly the file just written).
Returns the possibly-updated record and this record's contribution to
the `updated` flag. -/
def processPaper (env : Env) (p : Paper) : Paper × Bool :=
  if p.year ≠ some 2025 then (p, false)
  else if pictureTruthy p = true then (p, false)
  else
    match find_pdf_url p with
    | none => (p, false)
    | some url =>
      match env url with
      | FetchOutcome.downloadFailed _ => (p, false)
      | FetchOutcome.extractRaised _ => (p, false)
      | FetchOutcome.extracted r =>
        match savedExtOf r with
        | none => (p, false)
        | some ext =>
          if ext ∈ allowedExts then
            ({ p with picture := some (picturePath (slugify p.title) ext) }, true)
          else (p, false)

/-- The whole batch loop: process every record in order, collecting the
updated records and the accumulated `updated` flag. -/
def runBatch (env : Env) : List Paper → List Paper × Bool
  | [] => ([], false)
  | p :: ps =>
    ((processPaper env p).1 :: (runBatch env ps).1,
      (processPaper env p).2 || (runBatch env ps).2)

/-- How a run of `main` in `scripts/extract_fig1_yaml.py` ends: the
`sys.exit(1)` at line 111 (source file missing), the `sys.exit(1)` at
line 122 (`not publications`), or normal completion carrying the final
record list and whether the YAML file was rewritten. -/
inductive MainResult where
  | exitMissingFile
  | exitNoPublications
  | completed (papers : List Paper) (wroteFile : Bool)
deriving DecidableEq

/-- `main` of `scripts/extract_fig1_yaml.py` (lines 108-188):
`sourceFound` is whether `YAML_PATH.exists()`, `parsed` is what
`yaml.safe_load` produced (`none` for an empty file).  The YAML file is
rewritten exactly when the batch set the `updated` flag. -/
def mainYaml (sourceFound : Bool) (parsed : Option (List Paper)) (env : Env) : MainResult :=
  if sourceFound = false then MainResult.exitMissingFile
  else
    match parsed with
    | none => MainResult.exitNoPublications
    | some [] => MainResult.exitNoPublications
    | some pubs => MainResult.completed (runBatch env pubs).1 (runBatch env pubs).2

/-- Whether the run halted with a failure exit before processing any
record. -/
def isFatalExit : MainResult → Bool
  | MainResult.completed _ _ => false
  | _ => true

/-- The characters of the `.pdf` suffix. -/
def pdfPat : List Char := ['.', 'p', 'd', 'f']

theorem pdfPat_eq : ".pdf".data = pdfPat := rfl

theorem strData_append (s t : String) : (s ++ t).data = s.data ++ t.data := rfl

/-- Appending `pdfPat` after any list cannot create or destroy an
occurrence of `pdfPat` starting at the head position: an occurrence that
would overlap the appended suffix is impossible because no proper tail
of `pdfPat` starts with `'.'`. -/
theorem firstMatches_pdf_append (c : Char) (v : List Char) :
    firstMatches pdfPat (c :: (v ++ pdfPat)) = firstMatches pdfPat (c :: v) := by
  match v with
  | [] =>
    have h : ('p' == '.') = false := by decide
    simp [firstMatches, pdfPat, h]
  | [a] =>
    have h : ('d' == '.') = false := by decide
    simp [firstMatches, pdfPat, h]
  | [a, b] =>
    have h : ('f' == '.') = false := by decide
    simp [firstMatches, pdfPat, h]
  | a :: b :: d :: v' =>
    simp [firstMatches, pdfPat]

/-- Appending the `.pdf` characters adds exactly one occurrence of the
`.pdf` pattern. -/
theorem countSub_append_pdfPat (v : List Char) :
    countSub pdfPat (v ++ pdfPat) = countSub pdfPat v + 1 := by
  induction v with
  | nil =>
    show countSub pdfPat pdfPat = countSub pdfPat [] + 1
    decide
  | cons c v ih =>
    show (if firstMatches pdfPat (c :: (v ++ pdfPat)) = true then 1 else 0) +
        countSub pdfPat (v ++ pdfPat) =
      ((if firstMatches pdfPat (c :: v) = true then 1 else 0) + countSub pdfPat v) + 1
    rw [firstMatches_pdf_append, ih]
    omega

/-- String-level version: appending `".pdf"` adds exactly one `.pdf`
occurrence. -/
theorem strCount_append_pdf (r : String) :
    strCount (r ++ ".pdf") ".pdf" = strCount r ".pdf" + 1 := by
  show countSub ".pdf".data (r ++ ".pdf").data = countSub ".pdf".data r.data + 1
  rw [strData_append, pdfPat_eq]
  exact countSub_append_pdfPat r.data

theorem firstBigImage_append (l₁ l₂ : List PdfImage) :
    firstBigImage (l₁ ++ l₂) =
      (match firstBigImage l₁ with
       | some i => some i
       | none => firstBigImage l₂) := by
  induction l₁ with
  | nil => simp [firstBigImage]
  | cons a t ih =>
    by_cases h : isBigImage a = true
    · simp [firstBigImage, h]
    · simp [firstBigImage, h, ih]

/-- The page-by-page scan is the scan of the concatenated image lists. -/
theorem scanPages_eq_firstBig (pages : List (List PdfImage)) :
    scanPagesForImage pages = firstBigImage (concatAll pages) := by
  induction pages with
  | nil => rfl
  | cons pg rest ih =>
    show (match firstBigImage pg with
          | some i => some i
          | none => scanPagesForImage rest) = firstBigImage (pg ++ concatAll rest)
    rw [firstBigImage_append, ih]

theorem firstBigImage_big {l : List PdfImage} {i : PdfImage}
    (h : firstBigImage l = some i) : 10000 ≤ i.size := by
  induction l with
  | nil => simp [firstBigImage] at h
  | cons a t ih =>
    by_cases ha : isBigImage a = true
    · rw [firstBigImage, if_pos ha] at h
      cases h
      exact of_decide_eq_true ha
    · rw [firstBigImage, if_neg ha] at h
      exact ih h

theorem take3_eq_nil_iff {l l' : List (List PdfImage)}
    (h : l.take 3 = l'.take 3) : l = [] ↔ l' = [] := by
  cases l with
  | nil =>
    cases l' with
    | nil => simp
    | cons a t => simp at h
  | cons a t =>
    cases l' with
    | nil => simp at h
    | cons b u => simp

theorem imgPath_ne_empty (x : String) : ("/images/publications/" ++ x) ≠ "" := by
  intro h
  have h2 := congrArg String.length h
  rw [String.length_append] at h2
  have h3 : ("/images/publications/" : String).length = 21 := by decide
  have h4 : ("" : String).length = 0 := by decide
  rw [h3, h4] at h2
  omega

theorem pictureTruthy_set (ti : String) (y : Option Int) (ls : Option (List Link))
    (a b : String) :
    pictureTruthy ⟨ti, y, ls, some (picturePath a b)⟩ = true := by
  simp only [pictureTruthy, picturePath, decide_eq_true_eq]
  exact imgPath_ne_empty (a ++ ("." ++ b))

/-- Records that already carry a (truthy) picture are left unchanged
and contribute no update. -/
theorem processPaper_skip_pic (env : Env) (p : Paper)
    (h : pictureTruthy p = true) : processPaper env p = (p, false) := by
  unfold processPaper
  by_cases hy : p.year ≠ some 2025
  · rw [if_pos hy]
  · rw [if_neg hy, if_pos h]

/-- Records whose year is not 2025 are left unchanged and contribute no
update. -/
theorem processPaper_skip_year (env : Env) (p : Paper)
    (h : p.year ≠ some 2025) : processPaper env p = (p, false) := by
  unfold processPaper
  rw [if_pos h]

/-- A record that contributes no update is returned unchanged. -/
theorem processPaper_flag_false (env : Env) (p : Paper)
    (h : (processPaper env p).2 = false) : (processPaper env p).1 = p := by
  unfold processPaper at h ⊢
  repeat' split
  all_goals simp_all

/-- A record that did contribute an update now carries a truthy
picture. -/
theorem processPaper_flag_true (env : Env) (p : Paper)
    (h : (processPaper env p).2 = true) :
    pictureTruthy (processPaper env p).1 = true := by
  unfold processPaper at h ⊢
  repeat' split
  all_goals simp_all [pictureTruthy_set]

/-- Reprocessing the outcome of one processing step never updates
again. -/
theorem processPaper_twice (env : Env) (p : Paper) :
    (processPaper env (processPaper env p).1).2 = false := by
  cases hf : (processPaper env p).2
  · rw [processPaper_flag_false env p hf]
    exact hf
  · have ht := processPaper_flag_true env p hf
    rw [processPaper_skip_pic env _ ht]

theorem runBatch_fst (env : Env) (ps : List Paper) :
    (runBatch env ps).1 = ps.map (fun p => (processPaper env p).1) := by
  induction ps with
  | nil => rfl
  | cons p t ih => simp [runBatch, ih]

theorem runBatch_snd (env : Env) (ps : List Paper) :
    (runBatch env ps).2 = ps.any (fun p => (processPaper env p).2) := by
  induction ps with
  | nil => rfl
  | cons p t ih => simp [runBatch, ih]


/-- Skipping over links that match neither the arxiv rule nor the pdf
rule leaves the resolver's scan unchanged. -/
theorem findPdfUrlLinks_skip (pre rest : List Link)
    (hpre : ∀ x ∈ pre, x.type ≠ "pdf" ∧
      ¬(x.type = "arxiv" ∧ strContains x.url "arxiv.org" = true)) :
    findPdfUrlLinks (pre ++ rest) = findPdfUrlLinks rest := by
  induction pre with
  | nil => rfl
  | cons a t ih =>
    have ha := hpre a (List.mem_cons_self a t)
    have ht : ∀ x ∈ t, x.type ≠ "pdf" ∧
        ¬(x.type = "arxiv" ∧ strContains x.url "arxiv.org" = true) :=
      fun x hx => hpre x (List.mem_cons_of_mem a hx)
    rw [List.cons_append]
    show (if a.type = "arxiv" ∧ strContains a.url "arxiv.org" = true then
        if strContains a.url "/abs/" = true then
          some (strReplace a.url "/abs/" "/pdf/" ++ ".pdf")
        else some a.url
      else if a.type = "pdf" then some a.url
      else findPdfUrlLinks (t ++ rest)) = findPdfUrlLinks rest
    rw [if_neg ha.2, if_neg ha.1]
    exact ih ht

/-- Record used to refute claim C1: an arxiv link precedes the explicit
pdf link. -/
def linkArx : Link := { type := "arxiv", url := "arxiv.org/abs/1" }

/-- The explicit pdf-kind link of the C1 record. -/
def linkPdf : Link := { type := "pdf", url := "a.pdf" }

/-- The C1 record: both an arxiv-kind and a pdf-kind link, arxiv first. -/
def paperC1 : Paper :=
  { title := "t", year := some 2025, links := some [linkArx, linkPdf], picture := none }

/-- C1 counterexample: the record carries an explicit "pdf"-kind link,
yet the resolver does not return that link's URL — it returns the
rewritten URL of the "arxiv"-kind link that precedes it in the list, so
an explicit "pdf" link does not take priority over an "arxiv" link. -/
theorem C1_counterexample :
    paperC1.links = some [linkArx, linkPdf] ∧
    linkPdf.type = "pdf" ∧
    find_pdf_url paperC1 = some "arxiv.org/pdf/1.pdf" ∧
    find_pdf_url paperC1 ≠ some linkPdf.url := by decide

/-- C1 (amended): the resolver scans the link list in order and acts on
the first link matching either rule; a "pdf"-kind link's URL is returned
verbatim exactly when no earlier link is a "pdf"-kind link or an
"arxiv"-kind link whose URL contains "arxiv.org". -/
theorem C1_amended_holds (p : Paper) (pre post : List Link) (l : Link)
    (hl : p.links = some (pre ++ l :: post))
    (ht : l.type = "pdf")
    (hpre : ∀ x ∈ pre, x.type ≠ "pdf" ∧
      ¬(x.type = "arxiv" ∧ strContains x.url "arxiv.org" = true)) :
    find_pdf_url p = some l.url := by
  have h0 : find_pdf_url p = findPdfUrlLinks (pre ++ l :: post) := by
    unfold find_pdf_url
    rw [hl]
  rw [h0, findPdfUrlLinks_skip pre (l :: post) hpre]
  have hna : ¬(l.type = "arxiv" ∧ strContains l.url "arxiv.org" = true) := by
    intro hc
    rw [ht] at hc
    exact absurd hc.1 (by decide)
  show (if l.type = "arxiv" ∧ strContains l.url "arxiv.org" = true then
      if strContains l.url "/abs/" = true then
        some (strReplace l.url "/abs/" "/pdf/" ++ ".pdf")
      else some l.url
    else if l.type = "pdf" then some l.url
    else findPdfUrlLinks post) = some l.url
  rw [if_neg hna, if_pos ht]

/-- Link list whose head matches neither resolver rule, for the C1
witness. -/
def preC1 : List Link := [{ type := "code", url := "u0" }]

/-- C1 amended witness: with only a non-matching link ahead of it, the
pdf-kind link's URL is returned verbatim. -/
theorem C1_amended_witness :
    find_pdf_url
      { title := "t", year := some 2025,
        links := some (preC1 ++ [{ type := "pdf", url := "u1" }]),
        picture := none } = some "u1" :=
  C1_amended_holds _ preC1 [] { type := "pdf", url := "u1" } rfl rfl (by decide)

/-- Record used to refute claim C2: its only link is an arxiv
abstract-page link whose URL already ends in ".pdf". -/
def paperC2 : Paper :=
  { title := "t", year := some 2025,
    links := some [{ type := "arxiv", url := "arxiv.org/abs/x.pdf" }],
    picture := none }

/-- C2 counterexample: for an abstract-page URL that already ends in
".pdf" the YAML resolver appends the suffix anyway, so ".pdf" occurs
twice in the result rather than exactly once; the HTML-pipeline
normalizer instead returns such a URL unchanged, without rewriting the
path segment. -/
theorem C2_counterexample :
    find_pdf_url paperC2 = some "arxiv.org/pdf/x.pdf.pdf" ∧
    strCount "arxiv.org/pdf/x.pdf.pdf" ".pdf" = 2 ∧
    strEndsWith "arxiv.org/abs/x.pdf" ".pdf" = true ∧
    normalize_pdf_url "https://arxiv.org/abs/x.pdf" = "https://arxiv.org/abs/x.pdf" := by
  decide

/-- C2 (amended): for a record whose only link is an arxiv-kind
abstract-page link, the YAML resolver returns the URL with "/abs/"
replaced by "/pdf/" and ".pdf" appended unconditionally, and the result
contains exactly one more ".pdf" occurrence than the rewritten base (so
exactly one when the base contains none, two when the abstract URL
already ended in ".pdf"); the HTML-pipeline normalizer performs the
rewrite-and-append only for URLs not already ending in ".pdf". -/
theorem C2_amended_holds (u : String)
    (h1 : strContains u "arxiv.org" = true) (h2 : strContains u "/abs/" = true) :
    find_pdf_url
        { title := "t", year := some 2025,
          links := some [{ type := "arxiv", url := u }], picture := none } =
      some (strReplace u "/abs/" "/pdf/" ++ ".pdf") ∧
    strCount (strReplace u "/abs/" "/pdf/" ++ ".pdf") ".pdf" =
      strCount (strReplace u "/abs/" "/pdf/") ".pdf" + 1 ∧
    (∀ href : String, strStartsWith href "http" = true →
      strContains href "arxiv.org/abs" = true → strEndsWith href ".pdf" = false →
      normalize_pdf_url href = strReplace href "arxiv.org/abs" "arxiv.org/pdf" ++ ".pdf") := by
  refine ⟨?_, strCount_append_pdf _, ?_⟩
  · show (if ("arxiv" : String) = "arxiv" ∧ strContains u "arxiv.org" = true then
        if strContains u "/abs/" = true then
          some (strReplace u "/abs/" "/pdf/" ++ ".pdf")
        else some u
      else if ("arxiv" : String) = "pdf" then some u
      else findPdfUrlLinks []) = some (strReplace u "/abs/" "/pdf/" ++ ".pdf")
    rw [if_pos ⟨rfl, h1⟩, if_pos h2]
  · intro href ha hb hc
    unfold normalize_pdf_url
    rw [if_pos ha, if_pos hb, if_pos hc]

/-- C2 amended witness: a plain abstract-page URL is rewritten and gains
the suffix. -/
theorem C2_amended_witness :
    find_pdf_url
      { title := "t", year := some 2025,
        links := some [{ type := "arxiv", url := "arxiv.org/abs/x" }],
        picture := none } =
      some (strReplace "arxiv.org/abs/x" "/abs/" "/pdf/" ++ ".pdf") :=
  (C2_amended_holds "arxiv.org/abs/x" (by decide) (by decide)).1

/-- Document used against claim C3: a 5000-byte image then a 20000-byte
image, both embedded on page 1. -/
def docC3 : PdfDoc := ⟨[[⟨5000, "png"⟩, ⟨20000, "jpeg"⟩]]⟩

/-- Document whose two images sit beyond the 3-page window. -/
def docC3far : PdfDoc := ⟨[[], [], [], [⟨5000, "png"⟩, ⟨20000, "jpeg"⟩]]⟩

/-- C3 counterexample: the HTML-pipeline extractor saves the 5 KB image
(it applies no size threshold), and the YAML extractor never saves the
20 KB image when the images sit on page 4 — it renders page 1 instead —
so the claim does not hold of every document and every extractor in the
repository. -/
theorem C3_counterexample :
    extractFirstImageHtml docC3 = ExtractResult.embedded ⟨5000, "png"⟩ ∧
    extract_first_image_from_pdf docC3far = ExtractResult.renderedPage 0 150 "png" := by
  decide

/-- C3 (amended): in the YAML-pipeline extractor, among the embedded
images of the first 3 pages in page-and-embedding order, every image
below 10000 bytes is skipped and the first image of at least 10000 bytes
is the one saved. -/
theorem C3_amended_holds (doc : PdfDoc) (i : PdfImage)
    (h : firstBigImage (windowImages doc) = some i) :
    extract_first_image_from_pdf doc = ExtractResult.embedded i ∧
    (∀ j, extract_first_image_from_pdf doc = ExtractResult.embedded j → 10000 ≤ j.size) := by
  have hscan : scanPagesForImage (doc.pages.take 3) = some i := by
    rw [scanPages_eq_firstBig]
    exact h
  constructor
  · unfold extract_first_image_from_pdf
    rw [hscan]
  · intro j hj
    unfold extract_first_image_from_pdf at hj
    rw [hscan] at hj
    cases hj
    exact firstBigImage_big h

/-- C3 amended witness: on the 5 KB then 20 KB document the YAML
extractor saves the 20 KB image. -/
theorem C3_amended_witness :
    extract_first_image_from_pdf docC3 = ExtractResult.embedded ⟨20000, "jpeg"⟩ :=
  (C3_amended_holds docC3 ⟨20000, "jpeg"⟩ (by decide)).1

/-- Document used against claim C4: one 20000-byte image on page 4 of a
4-page document. -/
def docC4 : PdfDoc := ⟨[[], [], [], [⟨20000, "jpeg"⟩]]⟩

/-- The same document truncated to its first 3 pages. -/
def docC4short : PdfDoc := ⟨[[], [], []]⟩

/-- C4 counterexample: the HTML-pipeline extractor searches beyond the
first 3 pages — on a document whose only image sits on page 4 it saves
that embedded image instead of rendering page 1. -/
theorem C4_counterexample :
    extractFirstImageHtml docC4 = ExtractResult.embedded ⟨20000, "jpeg"⟩ ∧
    extractFirstImageHtml docC4 ≠ ExtractResult.renderedPage 0 150 "png" := by decide

/-- C4 (amended): the YAML-pipeline extractor scans only the first 3
pages — its result depends only on that window — and when the window
yields no qualifying image and the document is nonempty it renders page
1 at 150 DPI, saved as a PNG; the HTML-pipeline extractor scans all
pages. -/
theorem C4_amended_holds (doc doc' : PdfDoc)
    (h : doc.pages.take 3 = doc'.pages.take 3) :
    extract_first_image_from_pdf doc = extract_first_image_from_pdf doc' ∧
    (scanPagesForImage (doc.pages.take 3) = none → 0 < doc.pages.length →
      extract_first_image_from_pdf doc = ExtractResult.renderedPage 0 150 "png") := by
  constructor
  · unfold extract_first_image_from_pdf
    rw [h]
    cases hscan : scanPagesForImage (doc'.pages.take 3)
    · have hiff := take3_eq_nil_iff h
      by_cases hn : doc.pages = []
      · have hn' : doc'.pages = [] := hiff.mp hn
        rw [hn, hn']
      · have hn' : doc'.pages ≠ [] := fun hx => hn (hiff.mpr hx)
        rw [if_pos (List.length_pos.mpr hn), if_pos (List.length_pos.mpr hn')]
    · rfl
  · intro hnone hlen
    unfold extract_first_image_from_pdf
    rw [hnone, if_pos hlen]

/-- C4 amended witness: deleting page 4 (and its image) does not change
the YAML extractor's output. -/
theorem C4_amended_witness :
    extract_first_image_from_pdf docC4 = extract_first_image_from_pdf docC4short :=
  (C4_amended_holds docC4 docC4short (by decide)).1

/-- Reprocessing a batch output never sets the `updated` flag: every
record either kept its picture (and is skipped or re-fails identically
under the fixed environment) or gained a truthy picture (and is
skipped). -/
theorem runBatch_twice (env : Env) (papers : List Paper) :
    (runBatch env (runBatch env papers).1).2 = false := by
  induction papers with
  | nil => rfl
  | cons p t ih =>
    show ((processPaper env (processPaper env p).1).2 ||
        (runBatch env (runBatch env t).1).2) = false
    rw [processPaper_twice, ih]
    rfl

/-- C5: a record whose picture path is already set (a nonempty string,
Python truthiness) is left entirely unchanged by a batch run and
contributes no update; consequently running the batch a second time on
the output of a first run, against the same environment, sets no update
flag, so the YAML file is not written a second time. -/
theorem C5_idempotent_skip :
    (∀ (env : Env) (p : Paper), pictureTruthy p = true →
      processPaper env p = (p, false)) ∧
    (∀ (env : Env) (papers : List Paper),
      (runBatch env (runBatch env papers).1).2 = false) :=
  ⟨processPaper_skip_pic, runBatch_twice⟩

/-- Environment in which every download fails. -/
def env0 : Env := fun _ => FetchOutcome.downloadFailed "e"

/-- A 2025 record that already carries a picture path. -/
def paperPic : Paper :=
  { title := "t", year := some 2025, links := none,
    picture := some "/images/publications/x.png" }

/-- C5 witness: the already-pictured record passes through unchanged. -/
theorem C5_witness : processPaper env0 paperPic = (paperPic, false) :=
  C5_idempotent_skip.1 env0 paperPic (by decide)

/-- C6: on a document with zero pages both extractors report failure,
and the failure outcome corresponds to returning `False` with no image
file written. -/
theorem C6_zero_pages (doc : PdfDoc) (h : doc.pages = []) :
    extract_first_image_from_pdf doc = ExtractResult.failure ∧
    extractFirstImageHtml doc = ExtractResult.failure ∧
    extractSucceeded ExtractResult.failure = false ∧
    savedFileName (slugify "a title") ExtractResult.failure = none := by
  unfold extract_first_image_from_pdf extractFirstImageHtml
  rw [h]
  decide

/-- C6 witness: the empty document. -/
theorem C6_witness :
    extract_first_image_from_pdf ⟨[]⟩ = ExtractResult.failure ∧
    extractFirstImageHtml ⟨[]⟩ = ExtractResult.failure ∧
    extractSucceeded ExtractResult.failure = false ∧
    savedFileName (slugify "a title") ExtractResult.failure = none :=
  C6_zero_pages ⟨[]⟩ rfl

/-- C7: the batch always yields one output record per input record, and
each output record is exactly the result of processing its own input
record — download failures, extraction exceptions and missing links at
any other position (all absorbed inside `processPaper`) never prevent a
record from being processed, so no single failure aborts the run. -/
theorem C7_isolation (env : Env) (papers : List Paper) (j : Nat)
    (h : j < papers.length) :
    ((runBatch env papers).1).length = papers.length ∧
    ((runBatch env papers).1)[j]? = some (processPaper env papers[j]).1 := by
  constructor
  · rw [runBatch_fst]
    simp
  · rw [runBatch_fst, List.getElem?_map, List.getElem?_eq_getElem h]
    rfl

/-- Environment for the C7 witness: the first record's URL fails to
download, the second record's URL downloads and extracts fine. -/
def envC7 : Env := fun u =>
  if u = "u2" then FetchOutcome.extracted (ExtractResult.embedded ⟨20000, "png"⟩)
  else FetchOutcome.downloadFailed "boom"

/-- First C7 record; its download fails. -/
def paperA : Paper :=
  { title := "a", year := some 2025,
    links := some [{ type := "pdf", url := "u1" }], picture := none }

/-- Second C7 record; it succeeds. -/
def paperB : Paper :=
  { title := "b", year := some 2025,
    links := some [{ type := "pdf", url := "u2" }], picture := none }

/-- C7 witness: with the first record failing, the second is still
processed. -/
theorem C7_witness :
    ((runBatch envC7 [paperA, paperB]).1).length = ([paperA, paperB] : List Paper).length ∧
    ((runBatch envC7 [paperA, paperB]).1)[1]? =
      some (processPaper envC7 (([paperA, paperB] : List Paper)[1])).1 :=
  C7_isolation envC7 [paperA, paperB] 1 (by decide)

/-- C8 counterexample: the data source file is present, yet the run
halts with a failure exit before processing because the parsed
publication list is empty — so a missing source file is not the only
fatal condition, and the exit status does not reflect only whether the
file was found. -/
theorem C8_counterexample :
    mainYaml true (some []) env0 = MainResult.exitNoPublications ∧
    isFatalExit (mainYaml true (some []) env0) = true := by decide

/-- C8 (amended): the run halts with a failure exit before processing
exactly when the source file is missing or the parsed publication list
is empty or null; no other modelled condition is fatal. -/
theorem C8_amended_holds (fe : Bool) (parsed : Option (List Paper)) (env : Env) :
    isFatalExit (mainYaml fe parsed env) = true ↔
      (fe = false ∨ parsed = none ∨ parsed = some []) := by
  cases fe
  · simp [mainYaml, isFatalExit]
  · cases parsed with
    | none => simp [mainYaml, isFatalExit]
    | some l =>
      cases l with
      | nil => simp [mainYaml, isFatalExit]
      | cons p t => simp [mainYaml, isFatalExit]

/-- C9: the YAML batch touches only records whose year is 2025; a record
with any other year (or none) is returned unchanged with no update,
both as a single step and positionally within a whole batch run. -/
theorem C9_only_2025 :
    (∀ (env : Env) (p : Paper), p.year ≠ some 2025 →
      processPaper env p = (p, false)) ∧
    (∀ (env : Env) (papers : List Paper) (j : Nat) (h : j < papers.length),
      papers[j].year ≠ some 2025 →
      ((runBatch env papers).1)[j]? = some papers[j]) := by
  constructor
  · exact processPaper_skip_year
  · intro env papers j h hy
    rw [runBatch_fst, List.getElem?_map, List.getElem?_eq_getElem h]
    simp [processPaper_skip_year env _ hy]

/-- A 2024 record with a perfectly usable pdf link. -/
def paper2024 : Paper :=
  { title := "old", year := some 2024,
    links := some [{ type := "pdf", url := "u" }], picture := none }

/-- C9 witness: the 2024 record is untouched even though it has a link
and no picture. -/
theorem C9_witness : processPaper env0 paper2024 = (paper2024, false) :=
  C9_only_2025.1 env0 paper2024 (by decide)

/-- C10: a batch step sets a record's picture (and the update flag) only
with an extension from `.png`/`.jpg`/`.jpeg`; when the extractor saved a
file under any other native extension, the file exists on disk under
that extension, yet the record is returned unchanged with no update, so
the YAML file is not rewritten for it. -/
theorem C10_ext_gate :
    (∀ (env : Env) (p p' : Paper), processPaper env p = (p', true) →
      ∃ ext, ext ∈ allowedExts ∧
        p'.picture = some (picturePath (slugify p.title) ext)) ∧
    (∀ (env : Env) (p : Paper) (url : String) (r : ExtractResult) (ext : String),
      p.year = some 2025 → pictureTruthy p = false → find_pdf_url p = some url →
      env url = FetchOutcome.extracted r → savedExtOf r = some ext →
      ext ∉ allowedExts →
      processPaper env p = (p, false) ∧
        savedFileName (slugify p.title) r = some (slugify p.title ++ "." ++ ext)) := by
  constructor
  · intro env p p' hp
    unfold processPaper at hp
    repeat' split at hp
    any_goals (exfalso; simp_all; done)
    injection hp with h1 h2
    subst h1
    exact ⟨_, by assumption, rfl⟩
  · intro env p url r ext hy hp hurl henv hsv hnot
    constructor
    · simp [processPaper, hy, hp, hurl, henv, hsv, hnot]
    · cases r with
      | embedded i =>
        simp [savedExtOf] at hsv
        simp [savedFileName, hsv]
      | renderedPage a b e =>
        simp [savedExtOf] at hsv
        simp [savedFileName, hsv]
      | failure => simp [savedExtOf] at hsv

/-- Environment whose extraction saves a `.jpx` file. -/
def envJpx : Env := fun _ => FetchOutcome.extracted (ExtractResult.embedded ⟨20000, "jpx"⟩)

/-- A 2025 record with a pdf link and no picture yet. -/
def paperJpx : Paper :=
  { title := "t", year := some 2025,
    links := some [{ type := "pdf", url := "u" }], picture := none }

/-- C10 witness: the `.jpx` file exists on disk, yet the record stays
unchanged and unflagged. -/
theorem C10_witness :
    processPaper envJpx paperJpx = (paperJpx, false) ∧
    savedFileName (slugify paperJpx.title) (ExtractResult.embedded ⟨20000, "jpx"⟩) =
      some (slugify paperJpx.title ++ "." ++ "jpx") :=
  C10_ext_gate.2 envJpx paperJpx "u" (ExtractResult.embedded ⟨20000, "jpx"⟩) "jpx"
    (by decide) (by decide) (by decide) (by decide) (by decide) (by decide)
